import Mathlib

/-!
Verification development for the apidGatewayConfDeploy core
(readiness resolver, blob fetch tracker, change distributor, long-poll
gateway).  The Go source in api.go and data.go is shallowly embedded:
SQL tables become lists, SQL queries become list computations that follow
the three-valued-logic semantics of the SQL text, the distributor's settle
step becomes a pure state-transition function, and the HTTP handlers
become decision functions from request parameters and gateway state to an
outcome.
-/

namespace ApidGCD

/-- A raw row of the metadata_runtime_entity_metadata table: thirteen
nullable text columns, in the column order used by every SELECT in
data.go (id, organization_id, environment_id, bean_blob_id,
resource_blob_id, type, name, revision, path, created_at, created_by,
updated_at, updated_by).  SQL NULL is modelled as `none`. -/
structure Row where
  id : Option String
  org : Option String
  env : Option String
  bean : Option String
  resource : Option String
  typ : Option String
  name : Option String
  revision : Option String
  path : Option String
  created : Option String
  createdBy : Option String
  updated : Option String
  updatedBy : Option String
  deriving DecidableEq, Repr

/-- The Go struct `Configuration` of data.go: thirteen plain string
fields (`Type` is spelled `Typ` because `Type` is a Lean keyword). -/
structure Configuration where
  ID : String
  OrgID : String
  EnvID : String
  BlobID : String
  BlobResourceID : String
  Typ : String
  Name : String
  Revision : String
  Path : String
  Created : String
  CreatedBy : String
  Updated : String
  UpdatedBy : String
  deriving DecidableEq, Repr

/-- `structFromRow` (data.go 380-398): every column is scanned into a
`sql.NullString`; a field is set to the scanned string only when the
column value is valid (non-NULL), otherwise it keeps the zero value `""`.
The reflection loop walks the thirteen fields in declaration order, which
is the column order of `Row`. -/
def structFromRow (r : Row) : Configuration :=
  { ID := r.id.getD ""
    OrgID := r.org.getD ""
    EnvID := r.env.getD ""
    BlobID := r.bean.getD ""
    BlobResourceID := r.resource.getD ""
    Typ := r.typ.getD ""
    Name := r.name.getD ""
    Revision := r.revision.getD ""
    Path := r.path.getD ""
    Created := r.created.getD ""
    CreatedBy := r.createdBy.getD ""
    Updated := r.updated.getD ""
    UpdatedBy := r.updatedBy.getD "" }

/-- `structFromRows` (data.go 344-366): scan every row with the same
NullString treatment and append the resulting structs in row order. -/
def structFromRows (rs : List Row) : List Configuration :=
  rs.map structFromRow

/-- Claim C10: a SQL NULL column value yields the empty string in the
corresponding struct field when a row is mapped by structFromRow or
structFromRows; in particular a NULL resource_blob_id and an
empty-string resource_blob_id produce identical Configuration records,
both for a single row and for whole row lists. -/
theorem c10_null_column_eq_empty :
    (∀ r : Row, (structFromRow { r with resource := none }).BlobResourceID = "") ∧
    (∀ r : Row,
      structFromRow { r with resource := none } =
        structFromRow { r with resource := some "" }) ∧
    (∀ rs : List Row,
      structFromRows (rs.map fun r => { r with resource := none }) =
        structFromRows (rs.map fun r => { r with resource := some "" })) := by
  refine ⟨fun r => rfl, fun r => rfl, fun rs => ?_⟩
  simp only [structFromRows, List.map_map]
  exact List.map_congr_left fun a _ => rfl

/-- SQL equality of a nullable column against an id of the
apid_blob_available table (`avail`): a NULL column never matches any
row of the join. -/
def joinAvail (avail : List String) (v : Option String) : Bool :=
  match v with
  | none => false
  | some s => avail.contains s

/-- The condition `a.resource_blob_id IS NOT NULL AND
a.resource_blob_id != ""` used by both SELECTs of the INTERSECT branch
of getReadyDeployments (data.go 165-272). -/
def resourceNonEmpty (r : Row) : Bool :=
  match r.resource with
  | none => false
  | some s => decide (s ≠ "")

/-- Membership of an id value in the subquery of getReadyDeployments
(data.go 165-272): the INTERSECT of the ids whose row joins
apid_blob_available on resource_blob_id and of the ids whose row joins
it on bean_blob_id (both restricted to non-NULL non-empty
resource_blob_id), UNIONed with the ids whose row has NULL or empty
resource_blob_id and joins apid_blob_available on bean_blob_id. -/
def inReadyIdSet (rows : List Row) (avail : List String) (i : Option String) : Bool :=
  ((rows.any fun a => a.id == i && (resourceNonEmpty a && joinAvail avail a.resource)) &&
   (rows.any fun a => a.id == i && (resourceNonEmpty a && joinAvail avail a.bean))) ||
  (rows.any fun a => a.id == i &&
    ((a.resource == none || a.resource == some "") && joinAvail avail a.bean))

/-- `getReadyDeployments` (data.go 165-272): rows of
metadata_runtime_entity_metadata whose id lies in the ready subquery,
optionally restricted to an exact type match when a non-empty
typeFilter is given (the Go code issues one of two SQL statements
depending on whether typeFilter is the empty string); the selected rows
are mapped to Configurations by dataDeploymentsFromRows /
structFromRows. -/
def getReadyDeployments (typeFilter : String) (rows : List Row) (avail : List String) :
    List Configuration :=
  if typeFilter = "" then
    structFromRows (rows.filter fun a => inReadyIdSet rows avail a.id)
  else
    structFromRows (rows.filter fun a => a.typ == some typeFilter && inReadyIdSet rows avail a.id)

/-- With pairwise distinct ids, a per-id existential over the table
collapses to the row itself. -/
theorem any_key_iff {rows : List Row} {r : Row}
    (hids : (rows.map Row.id).Nodup) (hr : r ∈ rows) (p : Row → Bool) :
    (rows.any fun a => a.id == r.id && p a) = true ↔ p r = true := by
  constructor
  · intro h
    rcases List.any_eq_true.mp h with ⟨a, ha, hcond⟩
    rw [Bool.and_eq_true] at hcond
    rcases hcond with ⟨hid, hp⟩
    have hae : a = r := List.inj_on_of_nodup_map hids ha hr (by simpa using hid)
    exact hae ▸ hp
  · intro h
    exact List.any_eq_true.mpr ⟨r, hr, by simp [h]⟩

/-- The per-row readiness condition hidden in the subquery: with
distinct ids, a row's id lies in the ready id set iff its bean blob is
available and its resource blob is NULL, empty, or available. -/
theorem inReadyIdSet_iff {rows : List Row} {r : Row} (avail : List String)
    (hids : (rows.map Row.id).Nodup) (hr : r ∈ rows) :
    inReadyIdSet rows avail r.id = true ↔
      (joinAvail avail r.bean = true ∧
       (r.resource = none ∨ r.resource = some "" ∨ joinAvail avail r.resource = true)) := by
  unfold inReadyIdSet
  rw [Bool.or_eq_true, Bool.and_eq_true,
    any_key_iff hids hr (fun a => resourceNonEmpty a && joinAvail avail a.resource),
    any_key_iff hids hr (fun a => resourceNonEmpty a && joinAvail avail a.bean),
    any_key_iff hids hr
      (fun a => (a.resource == none || a.resource == some "") && joinAvail avail a.bean)]
  cases hres : r.resource with
  | none => simp [resourceNonEmpty, hres, joinAvail]
  | some s =>
    by_cases hs : s = ""
    · subst hs
      simp [resourceNonEmpty, hres, joinAvail]
    · simp only [resourceNonEmpty, hres, joinAvail, Bool.and_eq_true, Bool.or_eq_true,
        beq_iff_eq, decide_eq_true_eq, Option.some.injEq, reduceCtorEq]
      constructor
      · rintro (⟨⟨_, hresA⟩, _, hbean⟩ | ⟨hctr, _⟩)
        · exact ⟨hbean, Or.inr (Or.inr hresA)⟩
        · simp [hs] at hctr
      · rintro ⟨hbean, hfalse | hfalse | hresA⟩
        · exact absurd hfalse (by simp)
        · exact absurd hfalse (by simp [hs])
        · exact Or.inl ⟨⟨hs, hresA⟩, hs, hbean⟩

/-- Claim C1: with rows having non-NULL, pairwise distinct ids (the
table's primary key), a configuration is returned by
getReadyDeployments (unfiltered) iff its bean blob id is in the
available set and its resource blob id is NULL, empty, or in the
available set. -/
theorem c1_ready_iff (rows : List Row) (avail : List String) (r : Row)
    (hids : (rows.map Row.id).Nodup) (hnn : ∀ a ∈ rows, a.id ≠ none) (hr : r ∈ rows) :
    structFromRow r ∈ getReadyDeployments "" rows avail ↔
      (joinAvail avail r.bean = true ∧
       (r.resource = none ∨ r.resource = some "" ∨ joinAvail avail r.resource = true)) := by
  rw [← inReadyIdSet_iff avail hids hr]
  unfold getReadyDeployments structFromRows
  rw [if_pos rfl]
  constructor
  · intro hmem
    rcases List.mem_map.mp hmem with ⟨a, hafil, heq⟩
    rcases List.mem_filter.mp hafil with ⟨hamem, hpred⟩
    have hid : a.id = r.id := by
      have hID : (structFromRow a).ID = (structFromRow r).ID := by rw [heq]
      cases ha : a.id with
      | none => exact absurd ha (hnn a hamem)
      | some s =>
        cases hb : r.id with
        | none => exact absurd hb (hnn r hr)
        | some t =>
          simp only [structFromRow, ha, hb, Option.getD_some] at hID
          exact hID ▸ rfl
    have hae : a = r := List.inj_on_of_nodup_map hids hamem hr hid
    exact hae ▸ hpred
  · intro hpred
    exact List.mem_map.mpr ⟨r, List.mem_filter.mpr ⟨hr, hpred⟩, rfl⟩

/-- The test scenario's first configuration: bean blob b1, NULL
resource blob. -/
def rowA : Row :=
  { id := some "A", org := none, env := none, bean := some "b1", resource := none
    typ := some "ORGANIZATION", name := none, revision := none, path := none
    created := none, createdBy := none, updated := none, updatedBy := none }

/-- The test scenario's second configuration: bean blob b2, resource
blob r2, neither available. -/
def rowB : Row :=
  { id := some "B", org := none, env := none, bean := some "b2", resource := some "r2"
    typ := some "ENVIRONMENT", name := none, revision := none, path := none
    created := none, createdBy := none, updated := none, updatedBy := none }

/-- The two-configuration table of the scenario. -/
def rows0 : List Row := [rowA, rowB]

/-- Witness for C1: in the concrete scenario (configurations A and B,
only blob b1 available), configuration A is returned. -/
theorem c1_ready_iff_witness :
    structFromRow rowA ∈ getReadyDeployments "" rows0 ["b1"] :=
  (c1_ready_iff rows0 ["b1"] rowA (by decide) (by decide) (by decide)).mpr (by decide)

/-- SQLite three-valued `NOT IN` of a nullable column against the
subselect of available blob ids: a NULL column gives NULL (treated as
false by WHERE) unless the subselect is empty, in which case NOT IN is
true. -/
def sqlNotIn (avail : List String) (v : Option String) : Bool :=
  match v with
  | none => avail.isEmpty
  | some s => !(avail.contains s)

/-- The outer filter `WHERE id IS NOT NULL AND id != ''` of
getUnreadyBlobs, applied to a nullable id value. -/
def keepNonEmptyId (v : Option String) : Option String :=
  match v with
  | none => none
  | some s => if s = "" then none else some s

/-- `getUnreadyBlobs` (data.go 130-163): the UNION (duplicate-removing)
of the bean_blob_id values NOT IN apid_blob_available and the
resource_blob_id values NOT IN apid_blob_available, restricted by the
outer WHERE to non-NULL, non-empty ids. -/
def getUnreadyBlobs (rows : List Row) (avail : List String) : List String :=
  ((((rows.filter fun a => sqlNotIn avail a.bean).map Row.bean) ++
    ((rows.filter fun a => sqlNotIn avail a.resource).map Row.resource)).dedup).filterMap
    keepNonEmptyId

theorem keepNonEmptyId_eq_some {v : Option String} {b : String} :
    keepNonEmptyId v = some b ↔ v = some b ∧ b ≠ "" := by
  cases v with
  | none => simp [keepNonEmptyId]
  | some s =>
    by_cases hs : s = "" <;> simp [keepNonEmptyId, hs] <;> rintro rfl <;> simp [hs]

theorem contains_false_iff (l : List String) (b : String) :
    l.contains b = false ↔ b ∉ l := by
  simp

theorem mem_getUnreadyBlobs_iff {rows : List Row} {avail : List String} {b : String} :
    b ∈ getUnreadyBlobs rows avail ↔
      (b ≠ "" ∧ (∃ a ∈ rows, a.bean = some b ∨ a.resource = some b) ∧ b ∉ avail) := by
  unfold getUnreadyBlobs
  rw [List.mem_filterMap]
  constructor
  · rintro ⟨v, hv, hkeep⟩
    rcases keepNonEmptyId_eq_some.mp hkeep with ⟨rfl, hne⟩
    rw [List.mem_dedup, List.mem_append] at hv
    rcases hv with hv | hv <;> rcases List.mem_map.mp hv with ⟨a, hafil, hav⟩ <;>
      rcases List.mem_filter.mp hafil with ⟨hamem, hnotin⟩
    · rw [hav] at hnotin
      simp only [sqlNotIn, Bool.not_eq_true'] at hnotin
      exact ⟨hne, ⟨a, hamem, Or.inl hav⟩, (contains_false_iff avail b).mp hnotin⟩
    · rw [hav] at hnotin
      simp only [sqlNotIn, Bool.not_eq_true'] at hnotin
      exact ⟨hne, ⟨a, hamem, Or.inr hav⟩, (contains_false_iff avail b).mp hnotin⟩
  · rintro ⟨hne, ⟨a, hamem, hcol⟩, hnotin⟩
    refine ⟨some b, ?_, keepNonEmptyId_eq_some.mpr ⟨rfl, hne⟩⟩
    rw [List.mem_dedup, List.mem_append]
    rcases hcol with hcol | hcol
    · exact Or.inl (List.mem_map.mpr ⟨a, List.mem_filter.mpr
        ⟨hamem, by simp [sqlNotIn, hcol, hnotin]⟩, hcol⟩)
    · exact Or.inr (List.mem_map.mpr ⟨a, List.mem_filter.mpr
        ⟨hamem, by simp [sqlNotIn, hcol, hnotin]⟩, hcol⟩)

/-- Claim C4: getUnreadyBlobs returns exactly the referenced non-NULL,
non-empty bean and resource blob ids minus the available set (as a set,
duplicates collapsed), and enlarging the available set can only shrink
the result. -/
theorem c4_unready_set (rows : List Row) (avail avail' : List String) (b : String) :
    (b ∈ getUnreadyBlobs rows avail ↔
      (b ≠ "" ∧ (∃ a ∈ rows, a.bean = some b ∨ a.resource = some b) ∧ b ∉ avail)) ∧
    (avail ⊆ avail' → b ∈ getUnreadyBlobs rows avail' → b ∈ getUnreadyBlobs rows avail) := by
  refine ⟨mem_getUnreadyBlobs_iff, fun hsub hmem => ?_⟩
  rcases mem_getUnreadyBlobs_iff.mp hmem with ⟨hne, href, hnotin⟩
  exact mem_getUnreadyBlobs_iff.mpr ⟨hne, href, fun hin => hnotin (hsub hin)⟩

/-- Witness for C4: in the concrete scenario the unready set is
exactly b2 and r2, and membership of b2 survives shrinking back from a
larger available set. -/
theorem c4_unready_set_witness :
    getUnreadyBlobs rows0 ["b1"] = ["b2", "r2"] ∧ "b2" ∈ getUnreadyBlobs rows0 ["b1"] :=
  ⟨by decide, (c4_unready_set rows0 ["b1"] ["b1"] "b2").2 (fun _ h => h) (by decide)⟩

/-- `updateLocalFsLocation` (data.go 274-298): an
`INSERT OR IGNORE INTO apid_blob_available` — the row is appended only
when no row with the same primary-key id exists, otherwise the
statement is ignored; either way the transaction commits and the Go
function returns a nil error (absent storage failure, which this model
does not include). The table is a list of (id, local_fs_location)
pairs in insertion order. -/
def updateLocalFsLocation (tbl : List (String × String)) (blobId localFsLocation : String) :
    List (String × String) :=
  if tbl.any fun row => row.1 == blobId then tbl else tbl ++ [(blobId, localFsLocation)]

/-- `getLocalFSLocation` (data.go 300-319): scans every row of
apid_blob_available with the given id, keeping the last scanned
location; the initial (and no-row) value is the empty string, and the
error is nil whenever the query succeeds. -/
def getLocalFSLocation (tbl : List (String × String)) (blobId : String) : String :=
  tbl.foldl (fun acc row => if row.1 == blobId then row.2 else acc) ""

theorem updateLocalFsLocation_mem (tbl : List (String × String)) (blobId p : String) :
    ((updateLocalFsLocation tbl blobId p).any fun row => row.1 == blobId) = true := by
  unfold updateLocalFsLocation
  split
  · assumption
  · simp

theorem updateLocalFsLocation_of_mem {tbl : List (String × String)} {blobId : String}
    (h : (tbl.any fun row => row.1 == blobId) = true) (p : String) :
    updateLocalFsLocation tbl blobId p = tbl := by
  unfold updateLocalFsLocation
  rw [if_pos h]

theorem updateLocalFsLocation_of_not_mem {tbl : List (String × String)} {blobId : String}
    (h : (tbl.any fun row => row.1 == blobId) = false) (p : String) :
    updateLocalFsLocation tbl blobId p = tbl ++ [(blobId, p)] := by
  unfold updateLocalFsLocation
  rw [if_neg (by simp [h])]

theorem getLocalFSLocation_of_not_mem {tbl : List (String × String)} {blobId : String}
    (h : ∀ row ∈ tbl, row.1 ≠ blobId) (acc : String) :
    tbl.foldl (fun acc row => if row.1 == blobId then row.2 else acc) acc = acc := by
  induction tbl generalizing acc with
  | nil => rfl
  | cons hd tl ih =>
    have hhd : hd.1 ≠ blobId := h hd (List.mem_cons_self hd tl)
    rw [List.foldl_cons, if_neg (by simpa using hhd)]
    exact ih (fun row hrow => h row (List.mem_cons_of_mem hd hrow)) acc

/-- Claim C5: recording a blob twice — with the same or a different
path — leaves the table exactly as after the first call (the
first-recorded mapping is never altered), and for a fresh blob id the
lookup afterwards returns the path from the first call. -/
theorem c5_record_idempotent (tbl : List (String × String)) (blobId p1 p2 : String) :
    updateLocalFsLocation (updateLocalFsLocation tbl blobId p1) blobId p2 =
      updateLocalFsLocation tbl blobId p1 ∧
    ((∀ row ∈ tbl, row.1 ≠ blobId) →
      getLocalFSLocation
        (updateLocalFsLocation (updateLocalFsLocation tbl blobId p1) blobId p2) blobId = p1) := by
  have hsecond :
      updateLocalFsLocation (updateLocalFsLocation tbl blobId p1) blobId p2 =
        updateLocalFsLocation tbl blobId p1 :=
    updateLocalFsLocation_of_mem (updateLocalFsLocation_mem tbl blobId p1) p2
  refine ⟨hsecond, fun hfresh => ?_⟩
  rw [hsecond]
  have hnone : (tbl.any fun row => row.1 == blobId) = false := by
    rw [Bool.eq_false_iff]
    intro hany
    rcases List.any_eq_true.mp hany with ⟨row, hrow, hbeq⟩
    exact hfresh row hrow (by simpa using hbeq)
  rw [updateLocalFsLocation_of_not_mem hnone p1]
  unfold getLocalFSLocation
  rw [List.foldl_append, getLocalFSLocation_of_not_mem hfresh ""]
  simp

/-- Witness for C5: a concrete table without blob b; after recording b
at p1 and again at p2, the lookup returns p1. -/
theorem c5_record_idempotent_witness :
    getLocalFSLocation
      (updateLocalFsLocation (updateLocalFsLocation [("a", "pa")] "b" "p1") "b" "p2") "b" = "p1" :=
  (c5_record_idempotent [("a", "pa")] "b" "p1" "p2").2 (by decide)

/-- Two's-complement wrap of a mathematical integer into the int64
range, as performed by Go's fixed-width arithmetic. -/
def wrap64 (x : Int) : Int := (x + 2 ^ 63) % 2 ^ 64 - 2 ^ 63

/-- `incrementETag` (api.go 304-308): atomic.AddInt64 adds one to the
int64 counter, wrapping on overflow. -/
def incrementETag (e : Int) : Int := wrap64 (e + 1)

/-- The eTag counter after n settles; the package variable
`eTag int64` (api.go 46) starts at the zero value and each settled
debounce batch applies incrementETag exactly once. -/
def eTagAfter : Nat → Int
  | 0 => 0
  | n + 1 => incrementETag (eTagAfter n)

theorem wrap64_eq_self {x : Int} (h1 : -(2 ^ 63) ≤ x) (h2 : x < 2 ^ 63) : wrap64 x = x := by
  unfold wrap64
  rw [Int.emod_eq_of_lt (by omega) (by omega)]
  omega

theorem eTagAfter_succ (n : Nat) : eTagAfter (n + 1) = incrementETag (eTagAfter n) := rfl

theorem eTagAfter_eq_of_lt {n : Nat} (h : (n : Int) < 2 ^ 63) : eTagAfter n = n := by
  induction n with
  | zero => rfl
  | succ m ih =>
    have hm : (m : Int) < 2 ^ 63 := by push_cast at h ⊢; omega
    rw [eTagAfter_succ, ih hm]
    unfold incrementETag
    rw [wrap64_eq_self (by omega) (by push_cast at h; omega)]
    push_cast
    ring

theorem eTagAfter_wraps : eTagAfter (2 ^ 63) = -(2 ^ 63) := by
  have hsplit : (2 ^ 63 : Nat) = (2 ^ 63 - 1) + 1 := by norm_num
  rw [hsplit, eTagAfter_succ, eTagAfter_eq_of_lt (by norm_num)]
  unfold incrementETag wrap64
  have harg : ((2 ^ 63 - 1 : Nat) : Int) + 1 + 2 ^ 63 = 2 ^ 64 := by norm_num
  rw [harg, Int.emod_self]
  norm_num

/-- Claim C6 counterexample: the version token is NOT strictly
increasing across every sequence of settles — after 2^63 settles the
int64 counter wraps, and the token produced at settle 2^63 is smaller
than the token produced at settle 1. -/
theorem c6_counterexample :
    ¬ (∀ m n : Nat, m < n → eTagAfter m < eTagAfter n) := by
  intro h
  have hlt := h 1 (2 ^ 63) (by norm_num)
  rw [eTagAfter_wraps, eTagAfter_eq_of_lt (by norm_num)] at hlt
  norm_num at hlt

/-- Claim C6 (amended): the version token is strictly monotonically
increasing across any sequence of fewer than 2^63 settles — each new
token is greater than every earlier one, so within the int64 range the
token never decreases and is never reused. -/
theorem c6_token_strict_mono (m n : Nat) (hmn : m < n) (hn : (n : Int) < 2 ^ 63) :
    eTagAfter m < eTagAfter n := by
  rw [eTagAfter_eq_of_lt hn, eTagAfter_eq_of_lt (lt_of_le_of_lt (by exact_mod_cast hmn.le) hn)]
  exact_mod_cast hmn

/-- Witness for C6 (amended): the second settle's token exceeds the
first settle's. -/
theorem c6_token_strict_mono_witness : eTagAfter 1 < eTagAfter 2 :=
  c6_token_strict_mono 1 2 (by norm_num) (by norm_num)

/-- String rendering of the int64 counter, strconv.FormatInt(e, 10). -/
def formatInt (e : Int) : String := toString e

/-- The state owned by the distributeEvents loop (api.go 128-159): the
eTag counter and the current subscriber set (waiter delivery channels,
identified here by numbers; the Go map over channels has set
semantics). -/
structure DistState where
  eTag : Int
  subscribers : List Nat
  deriving DecidableEq, Repr

/-- The value delivered to one subscriber: the fetched deployment list
and the string form of the new eTag (the err component is nil in this
storage-failure-free model and is omitted). -/
structure DeploymentsResult where
  deployments : List Configuration
  eTag : String
  deriving DecidableEq, Repr

/-- Modelled from the spec: `getUnreadyDeployments` is called by
distributeEvents (api.go 144) but is not defined anywhere under src/;
per its name and the spec's readiness predicate it returns the
configurations that are NOT ready, i.e. the rows whose id is outside
the ready id set. -/
def getUnreadyDeployments (rows : List Row) (avail : List String) : List Configuration :=
  structFromRows (rows.filter fun a => !(inReadyIdSet rows avail a.id))

/-- The result of one settled debounce batch: the loop's new state and
the list of (subscriber, result) deliveries. -/
structure SettleOutput where
  state : DistState
  deliveries : List (Nat × DeploymentsResult)
  deriving DecidableEq, Repr

/-- One settle of distributeEvents (api.go 134-150): the loop swaps the
subscriber set for an empty one, then (in the spawned task, executed
here in-line) increments the eTag once, fetches getUnreadyDeployments,
and sends the result with the new eTag to every swapped-out
subscriber. -/
def distributeSettle (rows : List Row) (avail : List String) (s : DistState) : SettleOutput :=
  let e := incrementETag s.eTag
  let payload := getUnreadyDeployments rows avail
  { state := { eTag := e, subscribers := [] }
    deliveries := s.subscribers.map fun c => (c, { deployments := payload, eTag := formatInt e }) }

/-- Claim C2 (code divergence, evaluated at the failing input): in the
scenario with configurations A (ready) and B (unready), one settle with
waiter 7 registered does advance the token by exactly one, deliver to
every registered waiter, and clear the waiter set — but the payload it
delivers is the output of getUnreadyDeployments (configuration B), which
differs from the ready configurations (configuration A) that the claim
and the endpoint's immediate path (sendReadyDeployments) produce. -/
theorem c2_settle_divergence :
    (distributeSettle rows0 ["b1"] { eTag := 0, subscribers := [7] }).state.eTag = 1 ∧
    (distributeSettle rows0 ["b1"] { eTag := 0, subscribers := [7] }).state.subscribers = [] ∧
    (distributeSettle rows0 ["b1"] { eTag := 0, subscribers := [7] }).deliveries =
      [(7, { deployments := getUnreadyDeployments rows0 ["b1"], eTag := "1" })] ∧
    getUnreadyDeployments rows0 ["b1"] = [structFromRow rowB] ∧
    getReadyDeployments "" rows0 ["b1"] = [structFromRow rowA] ∧
    getUnreadyDeployments rows0 ["b1"] ≠ getReadyDeployments "" rows0 ["b1"] := by
  refine ⟨by decide, rfl, by decide, by decide, by decide, by decide⟩

/-- api.go 26-28: error codes written into error response bodies. -/
def API_ERR_BAD_BLOCK : Nat := 1

/-- api.go 26-28: the internal-error code. -/
def API_ERR_INTERNAL : Nat := 2

/-- Decimal value of a non-empty list of decimal digit characters. -/
def digitsToNat (ds : List Char) : Nat :=
  ds.foldl (fun n c => n * 10 + (c.toNat - 48)) 0

/-- strconv.Atoi: optional single leading sign, then one or more
decimal digits; any other character, an empty digit string, or a value
outside the int64 range is an error (none). -/
def atoi (s : String) : Option Int :=
  match s.data with
  | [] => none
  | c :: cs =>
    let signDigits : Bool × List Char :=
      if c = '-' then (true, cs)
      else if c = '+' then (false, cs)
      else (false, c :: cs)
    match signDigits.2 with
    | [] => none
    | _ :: _ =>
      if signDigits.2.all fun d => decide ('0' ≤ d) && decide (d ≤ '9') then
        let v : Int :=
          if signDigits.1 then -(digitsToNat signDigits.2 : Int)
          else (digitsToNat signDigits.2 : Int)
        if -(2 ^ 63) ≤ v ∧ v ≤ 2 ^ 63 - 1 then some v else none
      else none

/-- A GET /configurations request as the handler sees it:
r.URL.Query().Get("block") (empty string when absent) and the
If-None-Match header (empty string when absent). -/
structure Request where
  block : String
  ifNoneMatch : String
  deriving DecidableEq, Repr

/-- The decision taken by apiGetCurrentDeployments (api.go 182-247)
before any suspension: 400; immediate 304 with no body; immediate 200
with the ready deployments; or one of the two blocking shapes — with a
registered subscriber (timeout > 0 and a token present) or without one
(nil channel, only the timer can fire). -/
inductive Outcome where
  | badRequest
  | notModified
  | sendReady
  | subscribeThenWait (timeout : Int)
  | waitNoSubscribe (timeout : Int)
  deriving DecidableEq, Repr

/-- `getETag` (api.go 310-313): atomic load and decimal rendering. -/
def getETag (e : Int) : String := formatInt e

/-- The decision logic of apiGetCurrentDeployments (api.go 182-247):
parse block (empty means timeout 0, parse failure means 400); 304 when
the If-None-Match value equals the current eTag and timeout is 0;
immediate send of the ready deployments when the eTag differs;
otherwise block, subscribing only when timeout > 0 and a token was
supplied. -/
def apiGetCurrentDeployments (e : Int) (r : Request) : Outcome :=
  match (if r.block = "" then some 0 else atoi r.block) with
  | none => Outcome.badRequest
  | some timeout =>
    if getETag e = r.ifNoneMatch ∧ timeout = 0 then Outcome.notModified
    else if getETag e ≠ r.ifNoneMatch then Outcome.sendReady
    else if 0 < timeout ∧ r.ifNoneMatch ≠ "" then Outcome.subscribeThenWait timeout
    else Outcome.waitNoSubscribe timeout

/-- Claim C7 counterexample: a block value of "-1" — present and not a
non-negative integer — does NOT produce 400 BadRequest: strconv.Atoi
parses it, and the handler proceeds (here into the no-subscription
blocking branch, whose timer fires immediately and yields 304/200). -/
theorem c7_counterexample :
    apiGetCurrentDeployments 0 { block := "-1", ifNoneMatch := "0" } =
      Outcome.waitNoSubscribe (-1) ∧
    apiGetCurrentDeployments 0 { block := "-1", ifNoneMatch := "0" } ≠ Outcome.badRequest := by
  decide

/-- Claim C7 (amended): the handler answers 400 BadRequest exactly when
the block parameter is non-empty and fails strconv.Atoi integer parsing
(non-numeric text, lone sign, or out of int64 range); a parseable
negative integer such as "-1" is accepted and handled by the later
branches. -/
theorem c7_bad_block_iff (e : Int) (r : Request) :
    apiGetCurrentDeployments e r = Outcome.badRequest ↔
      (r.block ≠ "" ∧ atoi r.block = none) := by
  unfold apiGetCurrentDeployments
  have hbranch : ∀ t : Int,
      (if getETag e = r.ifNoneMatch ∧ t = 0 then Outcome.notModified
       else if getETag e ≠ r.ifNoneMatch then Outcome.sendReady
       else if 0 < t ∧ r.ifNoneMatch ≠ "" then Outcome.subscribeThenWait t
       else Outcome.waitNoSubscribe t) ≠ Outcome.badRequest := by
    intro t
    split
    · simp
    · split
      · simp
      · split <;> simp
  by_cases hb : r.block = ""
  · rw [if_pos hb]
    constructor
    · intro hcontra
      exact absurd hcontra (hbranch 0)
    · rintro ⟨hne, -⟩
      exact absurd hb hne
  · rw [if_neg hb]
    cases hA : atoi r.block with
    | none => simp [hb]
    | some t =>
      constructor
      · intro hcontra
        exact absurd hcontra (hbranch t)
      · rintro ⟨-, hnone⟩
        cases hnone

/-- Claim C8: when the client token equals the current version token
and the wait budget is zero (block absent or "0"), the handler answers
304 Not Modified immediately — the notModified outcome carries no body
and registers no subscriber. -/
theorem c8_not_modified (e : Int) (r : Request)
    (htok : r.ifNoneMatch = getETag e) (hblock : r.block = "" ∨ r.block = "0") :
    apiGetCurrentDeployments e r = Outcome.notModified := by
  have h0 : atoi "0" = some 0 := by decide
  rcases hblock with hb | hb <;>
    simp [apiGetCurrentDeployments, hb, h0, htok]

/-- Witness for C8: current token 0, request token "0", block "0". -/
theorem c8_not_modified_witness :
    apiGetCurrentDeployments 0 { block := "0", ifNoneMatch := "0" } = Outcome.notModified :=
  c8_not_modified 0 { block := "0", ifNoneMatch := "0" } (by decide) (Or.inr rfl)

/-- A response of the blob endpoint: an error status with its error
code (the JSON reason text is elided), or a 200 streaming the file's
bytes verbatim. -/
inductive BlobApiResult where
  | error (status : Nat) (code : Nat)
  | ok (body : List Nat)
  deriving DecidableEq, Repr

/-- `apiReturnBlobData` (api.go 161-180): look the blob id up with
getLocalFSLocation — whose query, absent storage failure, returns a nil
error even when no row matches (the location is then the empty string),
so the handler's first 500 branch is unreachable and is modelled away —
then ioutil.ReadFile the location (`fileSys` maps a path to its bytes,
none meaning the read fails; no file has the empty-string path) and
either answer 500 or stream the bytes. -/
def apiReturnBlobData (tbl : List (String × String)) (fileSys : String → Option (List Nat))
    (blobId : String) : BlobApiResult :=
  let fs := getLocalFSLocation tbl blobId
  match fileSys fs with
  | none => BlobApiResult.error 500 API_ERR_INTERNAL
  | some bs => BlobApiResult.ok bs

/-- A one-file filesystem: only /tmp/blob1 exists (holding bytes 104,
105); reading any other path — in particular the empty path produced by
an unmapped blob id — fails. -/
def exampleFS : String → Option (List Nat) :=
  fun p => if p = "/tmp/blob1" then some [104, 105] else none

/-- Claim C3 (code divergence, evaluated at the failing input): for a
blob id with no recorded local path the handler answers 500 (internal
error), not the 404 the claim requires — getLocalFSLocation returns an
empty location with a nil error and ReadFile of the empty path fails
into the 500 branch; a mapped blob whose file read fails also gets 500,
and a mapped, readable blob gets its bytes verbatim. -/
theorem c3_unmapped_is_500 :
    apiReturnBlobData [("otherBlob", "/tmp/blob1")] exampleFS "missingBlob" =
      BlobApiResult.error 500 API_ERR_INTERNAL ∧
    (500 : Nat) ≠ 404 ∧
    apiReturnBlobData [("brokenBlob", "/tmp/gone")] exampleFS "brokenBlob" =
      BlobApiResult.error 500 API_ERR_INTERNAL ∧
    apiReturnBlobData [("goodBlob", "/tmp/blob1")] exampleFS "goodBlob" =
      BlobApiResult.ok [104, 105] := by
  decide

/-- The record type consumed by sendDeployments (api.go 269-302); its
definition is not under src/, so its fields are taken from the
sendDeployments field accesses (OrgID, EnvID, Revision, GWBlobID,
BlobResourceID, Created, Updated, Type, BlobURL). -/
structure DataDeployment where
  orgID : String
  envID : String
  revision : String
  gwBlobID : String
  blobResourceID : String
  created : String
  updated : String
  typ : String
  blobURL : String
  deriving DecidableEq, Repr

/-- The JSON body element ApiDeploymentDetails (api.go 54-66). -/
structure ApiDeploymentDetails where
  self : String
  name : String
  org : String
  env : String
  typ : String
  blobURL : String
  revision : String
  blobId : String
  resourceBlobId : String
  created : String
  updated : String
  deriving DecidableEq, Repr

/-- The JSON body ApiDeploymentResponse (api.go 68-72). -/
structure ApiDeploymentResponse where
  kind : String
  self : String
  contents : List ApiDeploymentDetails
  deriving DecidableEq, Repr

/-- `sendDeployments` (api.go 269-302): builds the response body; each
detail copies Created and Updated verbatim from the record — no
timestamp conversion is applied anywhere (the iso8601 constant at
api.go 30-34 is declared but never used) — and the Self and Name fields
are never assigned, so they keep their zero value. -/
def sendDeployments (host : String) (deps : List DataDeployment) : ApiDeploymentResponse :=
  { kind := "Collections"
    self := host ++ "/configurations"
    contents := deps.map fun d =>
      { self := "", name := "", org := d.orgID, env := d.envID
        revision := d.revision, blobId := d.gwBlobID, resourceBlobId := d.blobResourceID
        created := d.created, updated := d.updated, typ := d.typ, blobURL := d.blobURL } }

/-- A deployment whose timestamps use a legacy SQL format that the
repository's own test table (api_test.go 333-335) requires to be
rendered as 2017-04-05T04:47:36.462Z. -/
def legacyTimeDeployment : DataDeployment :=
  { orgID := "o", envID := "e", revision := "1", gwBlobID := "b", blobResourceID := ""
    created := "2017-04-05 04:47:36.462 +0000 UTC"
    updated := "2017-04-05 04:47:36.462 +0000 UTC"
    typ := "ORGANIZATION", blobURL := "u" }

/-- Claim C9 (code divergence, evaluated at the failing input): a
legacy-format source timestamp is rendered verbatim by sendDeployments,
not normalized to the single ISO-8601 form that the claim (and the
repository's api_test.go) requires. -/
theorem c9_no_timestamp_normalization :
    ((sendDeployments "http://h" [legacyTimeDeployment]).contents.map
        ApiDeploymentDetails.created) = ["2017-04-05 04:47:36.462 +0000 UTC"] ∧
    ((sendDeployments "http://h" [legacyTimeDeployment]).contents.map
        ApiDeploymentDetails.updated) = ["2017-04-05 04:47:36.462 +0000 UTC"] ∧
    "2017-04-05 04:47:36.462 +0000 UTC" ≠ "2017-04-05T04:47:36.462Z" := by
  decide

end ApidGCD
